import Mathlib

/-!
# podcast-cli: `podcasts/episodes.go`

A shallow embedding of the episode listing code of the gpodder.net client
(`Podcast.Episodes`, `scrapEpisodesByPodcast`, `Episode.AudioURL`,
`parseReleaseDate`, `SearchEpisode`, `ByDate`) together with the properties of
its specification.

Conventions of the embedding.

* Go strings are lists of characters (`String` in records, `List Char` where the
  code walks through them).  The library routines involved only ever test for
  ASCII characters, so working on code points or on UTF-8 bytes is the same.
* `time.Time` is an instant: the number of nanoseconds since the zero time
  `0001-01-01 00:00:00 UTC`.
* The network and the HTML library are the environment: every function that
  calls `http.Get` takes the response it receives as an argument and reports
  which URLs it requested.
* The goroutines of `Episodes` run `episodes = append(episodes, ...)` without
  synchronisation: a task reads the shared slice and later writes the extended
  slice back.  The reads and writes of the tasks happen in an order that is an
  argument (`sched`).  The slice is described by its contents; what two tasks
  that extend the same spare capacity in place, or a read of a half-written
  slice header, may do beyond losing appended pages is not described.
* `int` is the 64-bit integer of Go and `float64` rounds to 53 significant
  bits, ties to even.  `index` and `count` are natural numbers (the
  specification only speaks about `offset >= 0` and `count >= 0`); those below
  `2^63` are the values an `int` argument can have.
-/

namespace Podcasts

/-! ## Time -/

/-- An instant, in nanoseconds since `0001-01-01 00:00:00 UTC` (the zero `time.Time`). -/
abbrev Time := Int

/-- The zero value `time.Time{}`. -/
def Time.zero : Time := 0

/-- The method `t.After(u)`: `t` is strictly later than `u`. -/
def Time.After (t u : Time) : Bool := decide (u < t)

/-- Cumulative days before the start of each month of a non-leap year (`daysBefore` of package time). -/
def daysBefore : List Nat := [0, 31, 59, 90, 120, 151, 181, 212, 243, 273, 304, 334, 365]

/-- The leap year test of package time. -/
def isLeap (year : Nat) : Bool := year % 4 == 0 && (year % 100 != 0 || year % 400 == 0)

/-- Number of days of month `m` (1 = January) of `year`, as `daysIn` of package time. -/
def daysIn (m year : Nat) : Nat :=
  if m == 2 && isLeap year then 29
  else daysBefore.getD m 0 - daysBefore.getD (m - 1) 0

/-- The instant `time.Date(year, month, day, 0, 0, 0, 0, time.UTC)` for a month in `1..12` and a
day of that month (the only arguments `time.Parse` builds a date from). -/
def Date (year month day : Nat) : Time :=
  let y : Int := (year : Int) - 1
  let days : Int := 365 * y + y / 4 - y / 100 + y / 400
    + (daysBefore.getD (month - 1) 0 : Nat)
    + (if isLeap year && decide (3 ≤ month) then 1 else 0)
    + ((day : Int) - 1)
  days * 86400 * 1000000000

/-! ## String helpers of the Go library -/

/-- Worker of `replaceAll`: `skip` counts the characters of the occurrence just replaced that are
still to be dropped. -/
def replaceGo (old new : List Char) : Nat → List Char → List Char
  | _, [] => []
  | skip + 1, _ :: cs => replaceGo old new skip cs
  | 0, c :: cs =>
    if old.isPrefixOf (c :: cs) then new ++ replaceGo old new (old.length - 1) cs
    else c :: replaceGo old new 0 cs

/-- The call `strings.Replace(s, old, new, -1)` for a non-empty `old`: every non-overlapping
occurrence of `old`, found from the left, is replaced by `new`. -/
def replaceAll (s old new : List Char) : List Char := replaceGo old new 0 s

/-- The call `strings.Trim(s, cutset)`: leading and trailing characters of `cutset` removed. -/
def trim (s cutset : List Char) : List Char :=
  ((s.dropWhile (fun c => cutset.contains c)).reverse.dropWhile (fun c => cutset.contains c)).reverse

/-! ## `time.Parse` for the layouts of `parseReleaseDate` -/

/-- The reference elements a layout of `parseReleaseDate` is made of. -/
inductive Std
  | stdMonth      -- "Jan"
  | stdLongMonth  -- "January"
  | stdDay        -- "2"
  | stdLongYear   -- "2006"
  deriving DecidableEq, Repr

/-- A layout cut into literal characters and reference elements. -/
inductive LayoutItem
  | lit (c : Char)
  | std (s : Std)
  deriving DecidableEq, Repr

/-- The test `startsWithLowerCase` of package time. -/
def startsWithLowerCase : List Char → Bool
  | [] => false
  | c :: _ => decide ('a' ≤ c) && decide (c ≤ 'z')

/-- The scan of `nextStdChunk`, restricted to the reference elements `Jan`, `January`, `2` and
`2006`: the other elements (`Mon`, `01`, `15`, `.000`, ...) start with characters that the layouts
of `parseReleaseDate` do not contain.  `skip` counts the characters of the element just recognised
that are still to be dropped. -/
def layoutItems : Nat → List Char → List LayoutItem
  | _, [] => []
  | skip + 1, _ :: cs => layoutItems skip cs
  | 0, c :: cs =>
    if "January".toList.isPrefixOf (c :: cs) then .std .stdLongMonth :: layoutItems 6 cs
    else if "Jan".toList.isPrefixOf (c :: cs) && !startsWithLowerCase (cs.drop 2) then
      .std .stdMonth :: layoutItems 2 cs
    else if "2006".toList.isPrefixOf (c :: cs) then .std .stdLongYear :: layoutItems 3 cs
    else if c == '2' then .std .stdDay :: layoutItems 0 cs
    else .lit c :: layoutItems 0 cs

/-- The chunks `(prefix, std)` that successive calls of `nextStdChunk` return, and the literal
text after the last reference element. -/
def layoutChunks : List LayoutItem → List Char → List (List Char × Std) × List Char
  | [], acc => ([], acc)
  | .lit c :: rest, acc => layoutChunks rest (acc ++ [c])
  | .std s :: rest, acc =>
    let r := layoutChunks rest []
    ((acc, s) :: r.1, r.2)

/-- The helper `cutspace`: leading spaces removed. -/
def cutspace (s : List Char) : List Char := s.dropWhile (fun c => c == ' ')

/-- The helper `skip(value, prefix)` of package time: the literal text `pre` of the layout is
removed from the front of `value`; a run of spaces in the layout stands for a run of spaces of any
length in the value (which must not start with another character, unless it is exhausted).
`inSpaces` tells that the run of spaces of the layout under the cursor was already matched. -/
def skip : Bool → List Char → List Char → Option (List Char)
  | _, [], value => some value
  | inSpaces, p :: ps, value =>
    if p == ' ' then
      if inSpaces then skip true ps value
      else
        match value with
        | [] => skip true ps []
        | c :: cs => if c != ' ' then none else skip true ps (cutspace (c :: cs))
    else
      match value with
      | [] => none
      | c :: cs => if c != p then none else skip false ps cs

/-- The helper `match` of package time on one character: equal, or equal ASCII letters up to
case. -/
def foldEq (c1 c2 : Char) : Bool :=
  c1 == c2 ||
    ((c1.toNat ||| 32) == (c2.toNat ||| 32) && decide (97 ≤ (c1.toNat ||| 32)) &&
      decide ((c1.toNat ||| 32) ≤ 122))

/-- The helper `match(s1, s2)` for strings of the same length. -/
def matchFold : List Char → List Char → Bool
  | [], [] => true
  | c1 :: s1, c2 :: s2 => foldEq c1 c2 && matchFold s1 s2
  | _, _ => false

/-- The helper `lookup(tab, val)`: index of the first name of `tab` that starts `val` up to case,
and the rest of `val`.  `i` is the index of the head of `tab`. -/
def lookup (i : Nat) : List String → List Char → Option (Nat × List Char)
  | [], _ => none
  | v :: tab, val =>
    if decide (v.length ≤ val.length) && matchFold (val.take v.length) v.toList then
      some (i, val.drop v.length)
    else lookup (i + 1) tab val

/-- Table `shortMonthNames` of package time. -/
def shortMonthNames : List String :=
  ["Jan", "Feb", "Mar", "Apr", "May", "Jun", "Jul", "Aug", "Sep", "Oct", "Nov", "Dec"]

/-- Table `longMonthNames` of package time. -/
def longMonthNames : List String :=
  ["January", "February", "March", "April", "May", "June", "July", "August", "September",
    "October", "November", "December"]

/-- The test `isDigit(s, i)` on one character. -/
def isDigit (c : Char) : Bool := decide ('0' ≤ c) && decide (c ≤ '9')

/-- Value of a decimal digit. -/
def digitVal (c : Char) : Nat := c.toNat - '0'.toNat

/-- The helper `getnum(s, false)`: a number of one or two digits. -/
def getnum : List Char → Option (Nat × List Char)
  | [] => none
  | [c] => if isDigit c then some (digitVal c, []) else none
  | c :: d :: rest =>
    if !isDigit c then none
    else if !isDigit d then some (digitVal c, d :: rest)
    else some (digitVal c * 10 + digitVal d, rest)

/-- The fields `time.Parse` collects. -/
structure Parsed where
  year : Nat
  month : Nat
  day : Nat
  deriving DecidableEq, Repr

/-- One reference element read from the value (the `switch std & stdMask` of `time.Parse`). -/
def parseStd (s : Std) (st : Parsed) (value : List Char) : Option (Parsed × List Char) :=
  match s with
  | .stdLongYear =>
    match value with
    | a :: b :: c :: d :: rest =>
      if isDigit a && isDigit b && isDigit c && isDigit d then
        some ({ st with year := ((digitVal a * 10 + digitVal b) * 10 + digitVal c) * 10 + digitVal d },
          rest)
      else none
    | _ => none
  | .stdMonth =>
    match lookup 0 shortMonthNames value with
    | some (i, rest) => some ({ st with month := i + 1 }, rest)
    | none => none
  | .stdLongMonth =>
    match lookup 0 longMonthNames value with
    | some (i, rest) => some ({ st with month := i + 1 }, rest)
    | none => none
  | .stdDay =>
    match getnum value with
    | some (n, rest) => some ({ st with day := n }, rest)
    | none => none

/-- The loop of `time.Parse` over the chunks of the layout. -/
def parseChunks : List (List Char × Std) → Parsed → List Char → Option (Parsed × List Char)
  | [], st, value => some (st, value)
  | (pre, s) :: rest, st, value =>
    match skip false pre value with
    | none => none
    | some value1 =>
      match parseStd s st value1 with
      | none => none
      | some (st1, value2) => parseChunks rest st1 value2

/-- The call `time.Parse(layout, value)` for a layout made of the elements `Jan`, `January`, `2`
and `2006` and literal text: `none` stands for a non-nil error.  After the last element the rest of
the layout is skipped, text left over in the value is an error ("extra text"), and so is a day
outside the month ("day out of range"). -/
def timeParse (layout value : List Char) : Option Time :=
  let chunks := layoutChunks (layoutItems 0 layout) []
  match parseChunks chunks.1 { year := 0, month := 0, day := 0 } value with
  | none => none
  | some (st, value1) =>
    match skip false chunks.2 value1 with
    | none => none
    | some value2 =>
      if !value2.isEmpty then none
      else if decide (st.day < 1) || decide (daysIn st.month st.year < st.day) then none
      else some (Date st.year st.month st.day)

/-! ## `parseReleaseDate` -/

/-- The loop `for _, format := range formats` of `parseReleaseDate`: the first layout that parses
returns; when the loop ends the named result, still the zero time, is returned. -/
def parseReleaseDateLoop (parse : List Char → List Char → Option Time) (date : List Char) :
    List String → Time
  | [] => Time.zero
  | format :: formats =>
    match parse format.toList date with
    | some releaseDate => releaseDate
    | none => parseReleaseDateLoop parse date formats

/-- The layouts `formats` of `parseReleaseDate`. -/
def formats : List String := ["Jan. 2, 2006", "January 2, 2006"]

/-- The function `parseReleaseDate`, over the parser `parse` standing for `time.Parse`. -/
def parseReleaseDateWith (parse : List Char → List Char → Option Time) (date : String) : Time :=
  let date1 := replaceAll date.toList "Sept.".toList "September".toList
  parseReleaseDateLoop parse date1 formats

/-- The function `parseReleaseDate`. -/
def parseReleaseDate (date : String) : Time := parseReleaseDateWith timeParse date

/-! ## Episodes and their order -/

/-- The record `Episode`.  The back reference `Podcast` (a pointer to the owner, never read in this
file) is left out. -/
structure Episode where
  URL : String
  Title : String
  Description : String
  audioURL : String
  ReleaseDate : Time
  deriving DecidableEq, Repr

/-- The method `ByDate.Less` on two elements: the first was released strictly after the second. -/
def ByDate.Less (a b : Episode) : Bool := a.ReleaseDate.After b.ReleaseDate

/-- Two neighbours are in the order `sort.Sort(ByDate(..))` establishes: the second is not `Less`
than the first. -/
def ByDate.Ordered (a b : Episode) : Prop := ByDate.Less b a = false

instance ByDate.decidableOrdered : DecidableRel ByDate.Ordered :=
  fun a b => inferInstanceAs (Decidable (ByDate.Less b a = false))

instance ByDate.orderedTotal : IsTotal Episode ByDate.Ordered :=
  ⟨fun a b => by
    simp only [ByDate.Ordered, ByDate.Less, Time.After, decide_eq_false_iff_not, not_lt]
    exact le_total _ _⟩

instance ByDate.orderedTrans : IsTrans Episode ByDate.Ordered :=
  ⟨fun a b c hab hbc => by
    simp only [ByDate.Ordered, ByDate.Less, Time.After, decide_eq_false_iff_not, not_lt] at *
    exact le_trans hbc hab⟩

/-- The call `sort.Sort(ByDate(l))`.  The library guarantees a rearrangement of `l` in which no
element is `Less` than one before it and leaves the order of equal elements open; the model is an
insertion sort, which keeps equal elements in their order. -/
def sortByDate (l : List Episode) : List Episode := l.insertionSort ByDate.Ordered

/-- A list is sorted by release date descending: no element has a release date strictly after the
release date of an element that precedes it. -/
def SortedByDateDesc (l : List Episode) : Prop :=
  l.Pairwise (fun a b => ¬ b.ReleaseDate.After a.ReleaseDate = true)

instance SortedByDateDesc.decidable (l : List Episode) : Decidable (SortedByDateDesc l) :=
  inferInstanceAs (Decidable (l.Pairwise _))

/-! ## Listing pages -/

/-- What the selectors of `scrapEpisodesByPodcast` read from one `.episode` node of a listing
page: the text of `.header > .title > a`, its `href` attribute when it has one, the text of
`.description` and the text of `.header > .released`. -/
structure EpisodeNode where
  title : String
  href : Option String
  description : String
  released : String
  deriving DecidableEq, Repr

/-- What `http.Get` and `goquery.NewDocumentFromReader` give for a listing URL: a transport error,
or a response with its status code and body; the body is `none` when it cannot be read as a
document and else the `.episode` nodes in document order. -/
inductive PageResponse
  | transportError
  | response (statusCode : Nat) (document : Option (List EpisodeNode))
  deriving DecidableEq, Repr

/-- The call `strings.Trim(s, " \n")`. -/
def trimSpaceNewline (s : String) : String := String.mk (trim s.toList [' ', '\n'])

/-- The method `scrapEpisodesByPodcast`, on the response received for its URL. -/
def scrapEpisodesByPodcast (r : PageResponse) : Except String (List Episode) :=
  match r with
  | .transportError => .error "Invalid podcast URL"
  | .response statusCode document =>
    if statusCode != 200 then .error "Invalid podcast URL"
    else
      match document with
      | none => .error "Failed to get episodes list"
      | some nodes =>
        .ok (nodes.filterMap (fun s =>
          match s.href with
          | none => none
          | some url =>
            some { URL := "https://gpodder.net" ++ url, Title := s.title,
                   Description := trimSpaceNewline s.description,
                   audioURL := "",
                   ReleaseDate := parseReleaseDate (trimSpaceNewline s.released) }))

/-! ## `Podcast.Episodes` -/

/-- Modelled from the spec: the declaration of the type `Podcast` is not in `episodes.go`; the
record has the base URL and the cached episode list with the `(offset, count)` that produced it.
`episodes = none` is the nil slice. -/
structure Podcast where
  URL : String
  episodes : Option (List Episode)
  episodeIndex : Nat
  episodesCount : Nat
  deriving DecidableEq, Repr

/-- A podcast on which `Episodes` was never called. -/
def Podcast.fresh (url : String) : Podcast :=
  { URL := url, episodes := none, episodeIndex := 0, episodesCount := 0 }

/-- The constant `episodesPerPage`. -/
def episodesPerPage : Nat := 20

/-- The local `startPage` of `Episodes`.  For an `index` below `2^63` neither this sum nor the
page number `startPage + i` of a task leaves the range of `int`. -/
def startPage (index : Nat) : Nat := index / episodesPerPage + 1

/-- The value of an `int` result: integers wrap around modulo `2^64` into `-2^63 .. 2^63 - 1`. -/
def wrapInt (x : Int) : Int := (x + 2 ^ 63) % 2 ^ 64 - 2 ^ 63

/-- The quotient `N / D` rounded to the nearest integer, ties to the even one. -/
def roundHalfEven (N D : Nat) : Nat :=
  if 2 * (N % D) < D then N / D
  else if D < 2 * (N % D) then N / D + 1
  else if (N / D) % 2 = 0 then N / D
  else N / D + 1

/-- The least `j` from `j` on, within `fuel` steps, with `N / D < 2^53 * 2^j / 2^57`: the
exponent, counted from `-57`, at which `N / D` has a mantissa below `2^53`. -/
def expSearch (N D : Nat) : Nat → Nat → Nat
  | 0, j => j
  | fuel + 1, j => if N * 2 ^ 57 < 2 ^ 53 * D * 2 ^ j then j else expSearch N D fuel (j + 1)

/-- A finite `float64` of magnitude `0` or between `2^-5` and `2^64`: the sign and the magnitude
`mant * 2^exp / 2^57` with `mant <= 2^53`.  All the values `pagesToFetch` computes with are of
this kind (they are normal numbers, far from overflow). -/
structure Float64 where
  neg : Bool
  mant : Nat
  exp : Nat
  deriving DecidableEq, Repr

/-- The magnitude of a `float64`, times `2^57`. -/
def Float64.num (f : Float64) : Nat := f.mant * 2 ^ f.exp

/-- The `float64` nearest to `N / D` (`D > 0`, the quotient `0` or between `2^-5` and `2^64`),
ties to the even mantissa: the rounding of every `float64` operation. -/
def roundFloat64 (neg : Bool) (N D : Nat) : Float64 :=
  if N = 0 then { neg := neg, mant := 0, exp := 0 }
  else
    { neg := neg
      mant := roundHalfEven (N * 2 ^ 57) (D * 2 ^ expSearch N D 69 0)
      exp := expSearch N D 69 0 }

/-- The conversion `float64(x)` of an `int`. -/
def float64OfInt (x : Int) : Float64 := roundFloat64 (decide (x < 0)) x.natAbs 1

/-- The quotient `f / d` of a `float64` by the constant `d` (a small positive integer, which is a
`float64` exactly). -/
def Float64.divNat (f : Float64) (d : Nat) : Float64 := roundFloat64 f.neg f.num (2 ^ 57 * d)

/-- The conversion `int(math.Ceil(f))`. -/
def Float64.ceilInt (f : Float64) : Int :=
  if f.neg then -((f.num / 2 ^ 57 : Nat) : Int)
  else (((f.num + 2 ^ 57 - 1) / 2 ^ 57 : Nat) : Int)

/-- The local `pagesToFetch` of `Episodes`:
`int(math.Ceil(float64(count+index%episodesPerPage) / episodesPerPage))`, with the sum computed
in `int` and the quotient and its ceiling in `float64`. -/
def pagesToFetch (index count : Nat) : Int :=
  ((float64OfInt (wrapInt ((count : Int) + ((index % episodesPerPage : Nat) : Int)))).divNat
    episodesPerPage).ceilInt

/-- The URL a page task requests, built by `fmt.Sprintf` from `podcast.URL`, the path of the
listing and the decimal page number. -/
def pageURL (podcast : Podcast) (page : Nat) : String :=
  podcast.URL ++ "/-episodes?page=" ++ toString page

/-- A step of a page task on the shared slice `episodes`: the read and the write of its statement
`episodes = append(episodes, episodesPerPage...)`. -/
inductive TaskStep
  | load (i : Nat)
  | store (i : Nat)
  deriving DecidableEq, Repr

/-- The shared slice while the page tasks run: its contents, the tasks that have read it and not
yet written (with the contents they read), and the tasks that are done. -/
structure SharedSlice where
  episodes : List Episode
  loaded : List (Nat × List Episode)
  finished : List Nat
  deriving DecidableEq, Repr

/-- One step of the page tasks `0 .. n-1` of `Episodes`.  At `load i` task `i`, which has fetched
its page, reads the shared slice; when the fetch failed the task prints the error and is done.  At
`store i` the task writes back what it read, extended by the episodes of its page.  A step that
cannot happen (no such task, a second read, a write without a read) changes nothing. -/
def taskStep (podcast : Podcast) (index : Nat) (net : String → PageResponse) (n : Nat)
    (st : SharedSlice) : TaskStep → SharedSlice
  | .load i =>
    if decide (i < n) && !st.finished.contains i && (st.loaded.lookup i).isNone then
      match scrapEpisodesByPodcast (net (pageURL podcast (startPage index + i))) with
      | .error _ => { st with finished := i :: st.finished }
      | .ok _ => { st with loaded := (i, st.episodes) :: st.loaded }
    else st
  | .store i =>
    match st.loaded.lookup i,
      scrapEpisodesByPodcast (net (pageURL podcast (startPage index + i))) with
    | some seen, .ok episodesPerPage =>
      { episodes := seen ++ episodesPerPage
        loaded := st.loaded.filter (fun p => p.1 != i)
        finished := i :: st.finished }
    | _, _ => st

/-- The steps of the tasks `order` when each runs its statement to the end before the next
starts. -/
def inTurn (order : List Nat) : List TaskStep :=
  order.flatMap (fun i => [.load i, .store i])

/-- The slice `episodes` after `wg.Wait()`: the steps of `sched` happen in their order, and the
tasks it leaves unfinished then run to their end one after the other. -/
def mergedEpisodes (podcast : Podcast) (index count : Nat) (net : String → PageResponse)
    (sched : List TaskStep) : List Episode :=
  ((sched ++ inTurn (List.range (pagesToFetch index count).toNat)).foldl
    (taskStep podcast index net (pagesToFetch index count).toNat)
    { episodes := [], loaded := [], finished := [] }).episodes

/-- The tasks of `order` that append when they run in turn, the tasks `done` being done. -/
def appending (n : Nat) : List Nat → List Nat → List Nat
  | _, [] => []
  | done, i :: order =>
    if i < n ∧ i ∉ done then i :: appending n (i :: done) order else appending n done order

/-- The cache test at the head of `Episodes`. -/
def cacheHit (podcast : Podcast) (index count : Nat) : Bool :=
  podcast.episodes.isSome && podcast.episodeIndex == index && podcast.episodesCount == count

/-- What a call of `Episodes` does: the list it returns, the podcast afterwards and the URLs it
requested. -/
structure EpisodesResult where
  returned : List Episode
  podcast : Podcast
  requested : List String
  deriving DecidableEq, Repr

/-- The method `Podcast.Episodes(index, count)`.  `net` gives the response to every listing URL
and `sched` the order of the reads and writes of the page tasks (see `mergedEpisodes`). -/
def Episodes (podcast : Podcast) (index count : Nat) (net : String → PageResponse)
    (sched : List TaskStep) : EpisodesResult :=
  if cacheHit podcast index count then
    { returned := podcast.episodes.getD [], podcast := podcast, requested := [] }
  else
    let episodes := mergedEpisodes podcast index count net sched
    let kept :=
      if episodes.length < count then sortByDate episodes
      else sortByDate (episodes.take count)
    { returned := kept
      podcast := { podcast with episodeIndex := index, episodesCount := count, episodes := some kept }
      requested := (List.range (pagesToFetch index count).toNat).map
        (fun i => pageURL podcast (startPage index + i)) }

/-- The episodes page task `i` contributes: those of its page, none when the fetch fails. -/
def pageEpisodes (podcast : Podcast) (index : Nat) (net : String → PageResponse) (i : Nat) :
    List Episode :=
  match scrapEpisodesByPodcast (net (pageURL podcast (startPage index + i))) with
  | .error _ => []
  | .ok episodesPerPage => episodesPerPage

/-- The episodes found on the pages of a call that were fetched successfully, page after page. -/
def foundEpisodes (podcast : Podcast) (index count : Nat) (net : String → PageResponse) :
    List Episode :=
  (List.range (pagesToFetch index count).toNat).flatMap (pageEpisodes podcast index net)

/-- Position `pos` (from 0) of the listing of a podcast is on listing page `page` (from 1). -/
def onPage (page pos : Nat) : Prop :=
  episodesPerPage * (page - 1) ≤ pos ∧ pos < episodesPerPage * page

/-- The cached list of the podcast, when there is one, is sorted by release date descending. -/
def CacheSorted (podcast : Podcast) : Prop :=
  ∀ l, podcast.episodes = some l → SortedByDateDesc l

/-- The arguments and the environment of one call of `Episodes`. -/
structure Call where
  index : Nat
  count : Nat
  net : String → PageResponse
  sched : List TaskStep

/-- The podcast after a sequence of calls of `Episodes`. -/
def runCalls (podcast : Podcast) : List Call → Podcast
  | [] => podcast
  | c :: calls => runCalls (Episodes podcast c.index c.count c.net c.sched).podcast calls

/-! ## `Episode.AudioURL` -/

/-- What `http.Get` and goquery give for the detail page of an episode: a transport error, or a
response with its status code and body; the body is `none` when it cannot be read as a document,
`some none` when `.description > a:nth-child(2)` has no `href`, and else that attribute. -/
inductive DetailResponse
  | transportError
  | response (statusCode : Nat) (document : Option (Option String))
  deriving DecidableEq, Repr

/-- The errors of `AudioURL`: "Invalid episode URL", the error of the document reader, and
"Failed to find audi link". -/
inductive AudioError
  | invalidEpisodeURL
  | documentError
  | linkNotFound
  deriving DecidableEq, Repr

/-- What a call of `AudioURL` does: the pair it returns (`err = none` is the nil error), the
episode afterwards and the URLs it requested. -/
structure AudioURLResult where
  link : String
  err : Option AudioError
  episode : Episode
  requested : List String
  deriving DecidableEq, Repr

/-- The method `Episode.AudioURL()`. -/
def AudioURL (e : Episode) (net : String → DetailResponse) : AudioURLResult :=
  if e.audioURL != "" then
    { link := e.audioURL, err := none, episode := e, requested := [] }
  else
    match net e.URL with
    | .transportError =>
      { link := "", err := some .invalidEpisodeURL, episode := e, requested := [e.URL] }
    | .response statusCode document =>
      if statusCode != 200 then
        { link := "", err := some .invalidEpisodeURL, episode := e, requested := [e.URL] }
      else
        match document with
        | none => { link := "", err := some .documentError, episode := e, requested := [e.URL] }
        | some none => { link := "", err := some .linkNotFound, episode := e, requested := [e.URL] }
        | some (some link) =>
          { link := link, err := none, episode := { e with audioURL := link },
            requested := [e.URL] }

/-! ## `SearchEpisode` -/

/-- The function `regexp.Match(pattern, b)` over a regular expression library given by its
compiler (`none`: the pattern is not a valid expression) and its matcher: the pair of the result
and whether the error is non-nil.  An invalid pattern gives `false` and an error. -/
def regexpMatch {R : Type} (compile : String → Option R) (run : R → String → Bool)
    (pattern b : String) : Bool × Bool :=
  match compile pattern with
  | none => (false, true)
  | some re => (run re b, false)

/-- The body of the loop of `SearchEpisode` for one episode. -/
def searchStep {R : Type} (compile : String → Option R) (run : R → String → Bool)
    (queryRegex : String) (episodesMatched : List Episode) (episode : Episode) : List Episode :=
  let tb := (regexpMatch compile run queryRegex episode.Title).1
  let db := (regexpMatch compile run queryRegex episode.Description).1
  if tb || db then episodesMatched ++ [episode] else episodesMatched

/-- The function `SearchEpisode(episodes, query)`. -/
def SearchEpisode {R : Type} (compile : String → Option R) (run : R → String → Bool)
    (episodes : List Episode) (query : String) : List Episode :=
  let queryRegex := "(?i)" ++ query
  sortByDate (episodes.foldl (searchStep compile run queryRegex) [])

/-- A text matches the case-insensitive pattern built from the query. -/
def matchesQuery {R : Type} (compile : String → Option R) (run : R → String → Bool)
    (query text : String) : Bool :=
  match compile ("(?i)" ++ query) with
  | none => false
  | some re => run re text

/-- The patterns of the literal fragment: `(?i)` followed by ASCII letters, digits and spaces.
The compiled form is the text to look for.  Patterns outside the fragment are not described. -/
def literalCompile (pattern : String) : Option (List Char) :=
  if "(?i)".toList.isPrefixOf pattern.toList then
    let w := pattern.toList.drop 4
    if w.all (fun c => c.isAlphanum || c == ' ') then some w else none
  else none

/-- A character `p` of a literal pattern under `(?i)` matches the character `c` of the text: the
same character, the same ASCII letter up to case, or one of the two other characters that fold
to an ASCII letter (the Kelvin sign for `k`, the long s for `s`). -/
def literalCharMatch (p c : Char) : Bool :=
  p == c || (p.isAlpha && c.isAlpha && p.toLower == c.toLower) ||
    (p.toLower == 'k' && c.toNat == 0x212A) || (p.toLower == 's' && c.toNat == 0x17F)

/-- The literal `w` matches at the start of the text. -/
def literalPrefix : List Char → List Char → Bool
  | [], _ => true
  | _ :: _, [] => false
  | p :: ps, c :: cs => literalCharMatch p c && literalPrefix ps cs

/-- The literal `w` matches somewhere in the text. -/
def literalFind (w : List Char) : List Char → Bool
  | [] => literalPrefix w []
  | c :: cs => literalPrefix w (c :: cs) || literalFind w cs

/-- The matcher of the literal fragment. -/
def literalRun (w : List Char) (text : String) : Bool := literalFind w text.toList

/-! ## Sample data -/

/-- A listing of forty episodes, newest first, one a year: the nodes of its pages. -/
def sampleNodes : List EpisodeNode :=
  (List.range 40).map (fun i =>
    { title := "Episode " ++ toString (40 - i)
      href := some ("/podcast/show/" ++ toString (40 - i))
      description := " notes \n"
      released := "\n January 1, " ++ toString (2040 - i) ++ " " })

/-- The episodes of the sample listing, newest first. -/
def sampleListing : List Episode :=
  (List.range 40).map (fun i =>
    { URL := "https://gpodder.net/podcast/show/" ++ toString (40 - i)
      Title := "Episode " ++ toString (40 - i)
      Description := "notes"
      audioURL := ""
      ReleaseDate := Date (2040 - i) 1 1 })

/-- The site serving the sample listing in two pages of twenty episodes. -/
def sampleNet (url : String) : PageResponse :=
  if url = "https://gpodder.net/podcast/show/-episodes?page=1" then
    .response 200 (some (sampleNodes.take 20))
  else if url = "https://gpodder.net/podcast/show/-episodes?page=2" then
    .response 200 (some ((sampleNodes.drop 20).take 20))
  else .response 404 none

/-- The podcast of the sample listing, before any call. -/
def samplePodcast : Podcast := Podcast.fresh "https://gpodder.net/podcast/show"

/-- An episode titled "Live from the studio". -/
def liveEpisode : Episode :=
  { URL := "https://gpodder.net/podcast/show/2", Title := "Live from the studio",
    Description := "A concert", audioURL := "", ReleaseDate := Date 2019 9 30 }

/-- An episode titled "Recorded show". -/
def recordedEpisode : Episode :=
  { URL := "https://gpodder.net/podcast/show/1", Title := "Recorded show",
    Description := "Taped in advance", audioURL := "", ReleaseDate := Date 2019 10 7 }

/-- A detail page whose audio link has an empty `href`. -/
def emptyLinkPage (_ : String) : DetailResponse := .response 200 (some (some ""))

/-- A detail page whose audio link points to a file. -/
def audioLinkPage (_ : String) : DetailResponse :=
  .response 200 (some (some "https://media.example.org/live.mp3"))

/-- A network on which every request fails. -/
def offline (_ : String) : DetailResponse := .transportError

/-! ## Auxiliary facts -/

/-- Two episodes are in sorted order when the second was not released after the first. -/
theorem ByDate.ordered_iff (a b : Episode) :
    ByDate.Ordered a b ↔ b.ReleaseDate ≤ a.ReleaseDate := by
  simp [ByDate.Ordered, ByDate.Less, Time.After]

/-- Sorting rearranges the list. -/
theorem sortByDate_perm (l : List Episode) : (sortByDate l).Perm l :=
  List.perm_insertionSort _ l

/-- Sorting keeps the length. -/
theorem sortByDate_length (l : List Episode) : (sortByDate l).length = l.length :=
  List.length_insertionSort _ l

/-- Sorting gives a list sorted by release date descending. -/
theorem sortByDate_sorted (l : List Episode) : SortedByDateDesc (sortByDate l) := by
  have h : List.Sorted ByDate.Ordered (sortByDate l) := List.sorted_insertionSort _ l
  refine List.Pairwise.imp ?_ h
  intro a b hab
  simp only [ByDate.Ordered, ByDate.Less] at hab
  simp [hab]

/-- The exponent search stops at or before any exponent that is large enough. -/
theorem expSearch_le (N D : Nat) (fuel j j0 : Nat) (hj : j ≤ j0) (hf : j0 ≤ j + fuel)
    (h0 : N * 2 ^ 57 < 2 ^ 53 * D * 2 ^ j0) : expSearch N D fuel j ≤ j0 := by
  induction fuel generalizing j with
  | zero => simpa [expSearch] using hj
  | succ fuel ih =>
    unfold expSearch
    split
    · exact hj
    · rename_i hc
      have hne : j ≠ j0 := fun e => hc (e ▸ h0)
      exact ih (j + 1) (by omega) (by omega)

/-- Rounding an exact quotient gives the quotient. -/
theorem roundHalfEven_exact (N D : Nat) (hD : 0 < D) (h : N % D = 0) :
    roundHalfEven N D = N / D := by
  unfold roundHalfEven
  rw [h]
  simp [hD]

/-- Rounding moves a quotient by at most a half. -/
theorem roundHalfEven_bounds (N D : Nat) (hD : 0 < D) :
    2 * (roundHalfEven N D * D) ≤ 2 * N + D ∧ 2 * N ≤ 2 * (roundHalfEven N D * D) + D := by
  have hdm : D * (N / D) + N % D = N := Nat.div_add_mod N D
  have hlt : N % D < D := Nat.mod_lt N hD
  have h1 : (N / D + 1) * D = D * (N / D) + D := by ring
  have h0 : N / D * D = D * (N / D) := by ring
  unfold roundHalfEven
  split
  · rw [h0]; omega
  · split
    · rw [h1]; omega
    · split
      · rw [h0]; omega
      · rw [h1]; omega

/-- The quotient `s / 20` for `s = 20 * k`, scaled to a mantissa. -/
theorem scaled_quotient (s k P U V : Nat) (hs : s = 20 * k) (hP : P = U * V) :
    s * P * P = P * 20 * U * (k * V) := by
  subst hs hP
  ring

/-- Below `2^53` the `float64` computation of `pagesToFetch` gives the ceiling of the quotient. -/
theorem pagesToFetch_exact (index count : Nat) (h : count + index % 20 < 2 ^ 53) :
    pagesToFetch index count = (((count + index % 20 + 19) / 20 : Nat) : Int) := by
  unfold pagesToFetch episodesPerPage
  generalize hs : count + index % 20 = s at h
  have hw : wrapInt ((count : Int) + ((index % 20 : Nat) : Int)) = (s : Int) := by
    unfold wrapInt
    omega
  rw [hw]
  have hof : float64OfInt (s : Int) = roundFloat64 false s 1 := by
    unfold float64OfInt
    have : decide ((s : Int) < 0) = false := by simp
    rw [this, Int.natAbs_ofNat]
  rw [hof]
  by_cases h0 : s = 0
  · subst h0
    decide
  · have hj1 : expSearch s 1 69 0 ≤ 57 :=
      expSearch_le s 1 69 0 57 (by omega) (by omega) (by omega)
    have hnum : (roundFloat64 false s 1).num = s * 2 ^ 57 := by
      unfold roundFloat64 Float64.num
      rw [if_neg h0]
      simp only [Nat.one_mul]
      have hdvd : 2 ^ expSearch s 1 69 0 ∣ s * 2 ^ 57 :=
        Dvd.dvd.mul_left (Nat.pow_dvd_pow 2 hj1) s
      rw [roundHalfEven_exact _ _ (by positivity) (Nat.mod_eq_zero_of_dvd hdvd)]
      exact Nat.div_mul_cancel hdvd
    have hneg : (roundFloat64 false s 1).neg = false := by
      unfold roundFloat64
      split <;> rfl
    unfold Float64.divNat
    rw [hnum, hneg]
    have hN : s * 2 ^ 57 ≠ 0 := by positivity
    have hj2 : expSearch (s * 2 ^ 57) (2 ^ 57 * 20) 69 0 ≤ 53 :=
      expSearch_le _ _ 69 0 53 (by omega) (by omega) (by omega)
    unfold roundFloat64 Float64.ceilInt Float64.num
    rw [if_neg hN]
    simp only [Bool.false_eq_true, if_false]
    generalize expSearch (s * 2 ^ 57) (2 ^ 57 * 20) 69 0 = j at hj2
    have hU1 : 0 < 2 ^ j := by positivity
    have hU2 : 2 ^ j ≤ 2 ^ 53 := Nat.pow_le_pow_right (by omega) hj2
    obtain ⟨V, hV⟩ : 2 ^ j ∣ 2 ^ 57 := Nat.pow_dvd_pow 2 (by omega)
    have hb := roundHalfEven_bounds (s * 2 ^ 57 * 2 ^ 57) (2 ^ 57 * 20 * 2 ^ j) (by positivity)
    have hT : roundHalfEven (s * 2 ^ 57 * 2 ^ 57) (2 ^ 57 * 20 * 2 ^ j) * (2 ^ 57 * 20 * 2 ^ j) =
        2 ^ 57 * 20 *
          (roundHalfEven (s * 2 ^ 57 * 2 ^ 57) (2 ^ 57 * 20 * 2 ^ j) * 2 ^ j) := by ring
    rw [hT] at hb
    have hex : s % 20 = 0 →
        roundHalfEven (s * 2 ^ 57 * 2 ^ 57) (2 ^ 57 * 20 * 2 ^ j) * 2 ^ j = s / 20 * 2 ^ 57 := by
      intro hr
      have hs20 : s = 20 * (s / 20) := by omega
      rw [roundHalfEven_exact _ _ (by positivity)
        (Nat.mod_eq_zero_of_dvd ⟨_, scaled_quotient s (s / 20) _ _ V hs20 hV⟩),
        scaled_quotient s (s / 20) _ _ V hs20 hV, Nat.mul_div_cancel_left _ (by positivity)]
      conv_rhs => rw [hV]
      ring
    generalize roundHalfEven (s * 2 ^ 57 * 2 ^ 57) (2 ^ 57 * 20 * 2 ^ j) * 2 ^ j = T at hb hex ⊢
    generalize 2 ^ j = U at hb hU1 hU2
    refine congrArg Nat.cast ?_
    by_cases hr : s % 20 = 0
    · have := hex hr
      omega
    · have hlo : s / 20 * 2 ^ 57 < T := by omega
      have hhi : T < (s / 20 + 1) * 2 ^ 57 := by omega
      have hq : (T + 2 ^ 57 - 1) / 2 ^ 57 = s / 20 + 1 := by
        apply Nat.div_eq_of_lt_le
        · omega
        · omega
      omega

/-- The list returned when the cache test fails. -/
theorem Episodes_miss (podcast : Podcast) (index count : Nat) (net : String → PageResponse)
    (sched : List TaskStep) (h : cacheHit podcast index count = false) :
    (Episodes podcast index count net sched).returned =
      if (mergedEpisodes podcast index count net sched).length < count then
        sortByDate (mergedEpisodes podcast index count net sched)
      else sortByDate ((mergedEpisodes podcast index count net sched).take count) := by
  simp [Episodes, h]

/-- A call of `Episodes` on a podcast with a sorted cache returns a sorted list and leaves a sorted cache. -/
theorem Episodes_keeps_sorted (podcast : Podcast) (index count : Nat)
    (net : String → PageResponse) (sched : List TaskStep) (h : CacheSorted podcast) :
    SortedByDateDesc (Episodes podcast index count net sched).returned ∧
      CacheSorted (Episodes podcast index count net sched).podcast := by
  unfold Episodes
  by_cases hc : cacheHit podcast index count = true
  · rw [if_pos hc]
    refine ⟨?_, h⟩
    cases he : podcast.episodes with
    | none => simp [SortedByDateDesc]
    | some l => exact h l he
  · rw [if_neg hc]
    have hs : SortedByDateDesc
        (if (mergedEpisodes podcast index count net sched).length < count then
          sortByDate (mergedEpisodes podcast index count net sched)
        else sortByDate ((mergedEpisodes podcast index count net sched).take count)) := by
      split
      · exact sortByDate_sorted _
      · exact sortByDate_sorted _
    refine ⟨hs, ?_⟩
    intro l hl
    simp only [Option.some.injEq] at hl
    exact hl ▸ hs

/-- Calls of `Episodes` keep the cache sorted. -/
theorem runCalls_sorted (calls : List Call) (podcast : Podcast) (h : CacheSorted podcast) :
    CacheSorted (runCalls podcast calls) := by
  induction calls generalizing podcast with
  | nil => exact h
  | cons c calls ih =>
    exact ih _ (Episodes_keeps_sorted podcast c.index c.count c.net c.sched h).2


/-- The result of `Episodes` when the cache test succeeds. -/
theorem Episodes_of_hit (podcast : Podcast) (index count : Nat) (net : String → PageResponse)
    (sched : List TaskStep) (h : cacheHit podcast index count = true) :
    Episodes podcast index count net sched =
      { returned := podcast.episodes.getD [], podcast := podcast, requested := [] } := by
  unfold Episodes
  rw [if_pos h]

/-- After a call the cache test succeeds for the same arguments. -/
theorem cacheHit_after (podcast : Podcast) (index count : Nat) (net : String → PageResponse)
    (sched : List TaskStep) :
    cacheHit (Episodes podcast index count net sched).podcast index count = true := by
  by_cases hc : cacheHit podcast index count = true
  · rw [Episodes_of_hit podcast index count net sched hc]
    exact hc
  · unfold Episodes
    rw [if_neg hc]
    simp [cacheHit]

/-- After a call the cached list is the list returned. -/
theorem cache_eq_returned (podcast : Podcast) (index count : Nat) (net : String → PageResponse)
    (sched : List TaskStep) :
    (Episodes podcast index count net sched).podcast.episodes.getD [] =
      (Episodes podcast index count net sched).returned := by
  by_cases hc : cacheHit podcast index count = true
  · rw [Episodes_of_hit podcast index count net sched hc]
  · unfold Episodes
    rw [if_neg hc]
    simp


/-- A task that runs its statement to the end on a slice nobody is about to write appends the
episodes of its page. -/
theorem taskStep_inTurn (podcast : Podcast) (index : Nat) (net : String → PageResponse)
    (n : Nat) (st : SharedSlice) (i : Nat) (hl : st.loaded = []) :
    [TaskStep.load i, TaskStep.store i].foldl (taskStep podcast index net n) st =
      if i < n ∧ i ∉ st.finished then
        { episodes := st.episodes ++ pageEpisodes podcast index net i, loaded := [],
          finished := i :: st.finished }
      else st := by
  obtain ⟨episodes, loaded, finished⟩ := st
  simp only at hl
  subst hl
  simp only [List.foldl_cons, List.foldl_nil, taskStep, pageEpisodes, List.lookup_nil,
    Option.isNone_none, Bool.and_true]
  by_cases hc : i < n ∧ i ∉ finished
  · rw [if_pos hc]
    have hb : (decide (i < n) && !finished.contains i) = true := by simpa using hc
    rw [if_pos hb]
    cases scrapEpisodesByPodcast (net (pageURL podcast (startPage index + i))) with
    | error msg => simp
    | ok page => simp
  · rw [if_neg hc]
    have hb : ¬ (decide (i < n) && !finished.contains i) = true := by simpa using hc
    rw [if_neg hb]
    simp

/-- The tasks that append in turn are distinct and are the tasks of the call named in `order`
that were not done. -/
theorem appending_spec (n : Nat) (order done : List Nat) :
    (appending n done order).Nodup ∧
      ∀ i, i ∈ appending n done order ↔ (i ∈ order ∧ i < n ∧ i ∉ done) := by
  induction order generalizing done with
  | nil => simp [appending]
  | cons a order ih =>
    unfold appending
    by_cases hc : a < n ∧ a ∉ done
    · rw [if_pos hc]
      obtain ⟨hnd, hmem⟩ := ih (a :: done)
      refine ⟨List.nodup_cons.2 ⟨fun h => ?_, hnd⟩, fun i => ?_⟩
      · have := ((hmem a).1 h).2.2
        simp at this
      · rw [List.mem_cons, hmem, List.mem_cons, List.mem_cons]
        constructor
        · rintro (rfl | ⟨h1, h2, h3⟩)
          · exact ⟨Or.inl rfl, hc.1, hc.2⟩
          · exact ⟨Or.inr h1, h2, fun h => h3 (Or.inr h)⟩
        · rintro ⟨h1 | h1, h2, h3⟩
          · exact Or.inl h1
          · by_cases hia : i = a
            · exact Or.inl hia
            · exact Or.inr ⟨h1, h2, fun h => h.elim hia h3⟩
    · rw [if_neg hc]
      obtain ⟨hnd, hmem⟩ := ih done
      refine ⟨hnd, fun i => ?_⟩
      rw [hmem, List.mem_cons]
      constructor
      · rintro ⟨h1, h2, h3⟩
        exact ⟨Or.inr h1, h2, h3⟩
      · rintro ⟨h1 | h1, h2, h3⟩
        · exact absurd ⟨h1 ▸ h2, h1 ▸ h3⟩ hc
        · exact ⟨h1, h2, h3⟩

/-- The shared slice after the tasks `order` ran in turn. -/
theorem foldl_inTurn (podcast : Podcast) (index : Nat) (net : String → PageResponse)
    (n : Nat) (order : List Nat) (st : SharedSlice) (hl : st.loaded = []) :
    (inTurn order).foldl (taskStep podcast index net n) st =
      { episodes := st.episodes ++
          (appending n st.finished order).flatMap (pageEpisodes podcast index net)
        loaded := []
        finished := (appending n st.finished order).reverse ++ st.finished } := by
  induction order generalizing st with
  | nil =>
    obtain ⟨episodes, loaded, finished⟩ := st
    simp only at hl
    subst hl
    simp [inTurn, appending]
  | cons i order ih =>
    have hcons : inTurn (i :: order) = [TaskStep.load i, TaskStep.store i] ++ inTurn order := by
      simp [inTurn]
    rw [hcons, List.foldl_append, taskStep_inTurn podcast index net n st i hl]
    unfold appending
    by_cases hc : i < n ∧ i ∉ st.finished
    · rw [if_pos hc, if_pos hc, ih _ rfl]
      simp
    · rw [if_neg hc, if_neg hc, ih _ hl]

/-- When the page tasks run their appends in turn, in any order, the merged slice is a
rearrangement of the episodes found. -/
theorem mergedEpisodes_inTurn (podcast : Podcast) (index count : Nat)
    (net : String → PageResponse) (order : List Nat) :
    (mergedEpisodes podcast index count net (inTurn order)).Perm
      (foundEpisodes podcast index count net) := by
  unfold mergedEpisodes foundEpisodes
  have happ : inTurn order ++ inTurn (List.range (pagesToFetch index count).toNat) =
      inTurn (order ++ List.range (pagesToFetch index count).toNat) := by
    simp [inTurn]
  rw [happ, foldl_inTurn _ _ _ _ _ _ rfl]
  simp only [List.nil_append]
  refine List.Perm.flatMap_right _ ?_
  obtain ⟨hnd, hmem⟩ :=
    appending_spec (pagesToFetch index count).toNat
      (order ++ List.range (pagesToFetch index count).toNat) []
  rw [List.perm_ext_iff_of_nodup hnd (List.nodup_range _)]
  intro a
  rw [hmem, List.mem_range, List.mem_append, List.mem_range]
  constructor
  · rintro ⟨-, h, -⟩
    exact h
  · intro h
    exact ⟨Or.inr h, h, by simp⟩

/-- When the page tasks run their appends in turn, a call that misses the cache returns
`min n count` episodes, `n` being the number found on the pages fetched successfully. -/
theorem Episodes_inTurn_length (podcast : Podcast) (index count : Nat)
    (net : String → PageResponse) (order : List Nat)
    (hmiss : cacheHit podcast index count = false) :
    (Episodes podcast index count net (inTurn order)).returned.length =
      min (foundEpisodes podcast index count net).length count := by
  rw [Episodes_miss podcast index count net _ hmiss,
    ← (mergedEpisodes_inTurn podcast index count net order).length_eq]
  split
  · rw [sortByDate_length]; omega
  · rw [sortByDate_length, List.length_take]; omega

/-- When the page tasks run their appends in turn, a call that misses the cache returns episodes
of pages whose fetch succeeded only, and all of them, rearranged, when they are fewer than
`count`. -/
theorem Episodes_inTurn_contains_failures (podcast : Podcast) (index count : Nat)
    (net : String → PageResponse) (order : List Nat)
    (hmiss : cacheHit podcast index count = false) :
    (∀ e ∈ (Episodes podcast index count net (inTurn order)).returned,
        ∃ i, i < (pagesToFetch index count).toNat ∧ ∃ page,
          scrapEpisodesByPodcast (net (pageURL podcast (startPage index + i))) = .ok page ∧
            e ∈ page) ∧
      ((foundEpisodes podcast index count net).length < count →
        (Episodes podcast index count net (inTurn order)).returned.Perm
          (foundEpisodes podcast index count net)) := by
  have hp := mergedEpisodes_inTurn podcast index count net order
  rw [Episodes_miss podcast index count net _ hmiss]
  constructor
  · intro e he
    have hmem : e ∈ foundEpisodes podcast index count net := by
      split at he
      · exact hp.subset ((sortByDate_perm _).subset he)
      · exact hp.subset ((List.take_sublist _ _).subset ((sortByDate_perm _).subset he))
    unfold foundEpisodes at hmem
    rw [List.mem_flatMap] at hmem
    obtain ⟨i, hi, hei⟩ := hmem
    refine ⟨i, List.mem_range.1 hi, ?_⟩
    unfold pageEpisodes at hei
    cases hs : scrapEpisodesByPodcast (net (pageURL podcast (startPage index + i))) with
    | error msg => rw [hs] at hei; simp at hei
    | ok page => rw [hs] at hei; exact ⟨page, rfl, hei⟩
  · intro hlt
    rw [← hp.length_eq] at hlt
    rw [if_pos hlt]
    exact (sortByDate_perm _).trans hp

/-- C3: on a podcast reached from a fresh one by any calls of `Episodes`, every call of `Episodes`,
whatever the offset, the count and the outcome of the page fetches, returns a list sorted by release
date descending, be it freshly fetched or the cached list. -/
theorem Episodes_sorted (url : String) (calls : List Call) (index count : Nat)
    (net : String → PageResponse) (sched : List TaskStep) :
    SortedByDateDesc (Episodes (runCalls (Podcast.fresh url) calls) index count net sched).returned := by
  refine (Episodes_keeps_sorted _ index count net sched (runCalls_sorted calls _ ?_)).1
  intro l hl
  simp [Podcast.fresh] at hl

/-- C5: after a call `Episodes(offset, count)` on any podcast and with any outcome of the page
fetches, a second call with the same arguments returns the list the first returned, requests no
page and leaves the podcast (cached list and markers) as the first call left it. -/
theorem Episodes_repeat_cached (podcast : Podcast) (index count : Nat)
    (net₁ net₂ : String → PageResponse) (sched₁ sched₂ : List TaskStep) :
    (Episodes (Episodes podcast index count net₁ sched₁).podcast index count net₂ sched₂).returned =
        (Episodes podcast index count net₁ sched₁).returned ∧
      (Episodes (Episodes podcast index count net₁ sched₁).podcast index count net₂ sched₂).requested
        = [] ∧
      (Episodes (Episodes podcast index count net₁ sched₁).podcast index count net₂ sched₂).podcast =
        (Episodes podcast index count net₁ sched₁).podcast := by
  rw [Episodes_of_hit _ index count net₂ sched₂ (cacheHit_after podcast index count net₁ sched₁)]
  exact ⟨cache_eq_returned podcast index count net₁ sched₁, rfl, rfl⟩

/-- C4 fails at `offset = 0`, `count = 2^53 + 9`: the sum is not a `float64`, it is rounded to
`2^53 + 8`, and `pagesToFetch` is 450359962737050, one page short: no fetched page holds the last
position `2^53 + 8` of the window. -/
theorem pages_miss_window_end :
    1 ≤ 2 ^ 53 + 9 ∧
      pagesToFetch 0 (2 ^ 53 + 9) = 450359962737050 ∧
      (0 ≤ 2 ^ 53 + 8 ∧ 2 ^ 53 + 8 < 0 + (2 ^ 53 + 9)) ∧
      ¬ ∃ page : Nat, startPage 0 ≤ page ∧
        (page : Int) < (startPage 0 : Int) + pagesToFetch 0 (2 ^ 53 + 9) ∧
          onPage page (2 ^ 53 + 8) := by
  have hp : pagesToFetch 0 (2 ^ 53 + 9) = 450359962737050 := by decide
  refine ⟨by decide, hp, ⟨by decide, by decide⟩, ?_⟩
  rintro ⟨page, -, h2, h3, h4⟩
  rw [hp] at h2
  simp only [startPage, onPage, episodesPerPage] at h2 h3 h4
  omega

/-- C4 amended: for `count >= 1` and `count + offset mod 20 < 2^53` the pages
`startPage .. startPage + pagesToFetch - 1` hold every position of the window
`offset .. offset + count - 1`, no smaller number of pages from `startPage` does, `(0, 20)`,
`(15, 10)`, `(20, 20)` give 1 page from page 1, 2 pages from page 1 and 1 page from page 2, and
`pagesToFetch` is the ceiling of `(count + offset mod 20) / 20`. -/
theorem pages_cover_window (index count : Nat) (hcount : 1 ≤ count)
    (hexact : count + index % 20 < 2 ^ 53) :
    (∀ pos, index ≤ pos → pos < index + count →
        ∃ page : Nat, startPage index ≤ page ∧
          (page : Int) < (startPage index : Int) + pagesToFetch index count ∧ onPage page pos) ∧
      (∀ k : Nat, (∀ pos, index ≤ pos → pos < index + count →
          ∃ page, startPage index ≤ page ∧ page < startPage index + k ∧ onPage page pos) →
        pagesToFetch index count ≤ (k : Int)) ∧
      (startPage 0 = 1 ∧ pagesToFetch 0 20 = 1) ∧
      (startPage 15 = 1 ∧ pagesToFetch 15 10 = 2) ∧
      (startPage 20 = 2 ∧ pagesToFetch 20 20 = 1) ∧
      pagesToFetch index count = (((count + index % 20 + 19) / 20 : Nat) : Int) := by
  rw [pagesToFetch_exact index count hexact]
  simp only [startPage, onPage, episodesPerPage]
  refine ⟨?_, ?_, by decide, by decide, by decide, trivial⟩
  · intro pos h1 h2
    exact ⟨pos / 20 + 1, by omega, by omega, by omega, by omega⟩
  · intro k hk
    obtain ⟨page, h1, h2, h3, h4⟩ := hk (index + count - 1) (by omega) (by omega)
    omega

/-- The window of `Episodes(15, 10)` is on the pages it fetches. -/
theorem pages_cover_window_witness :
    (1 : Nat) ≤ 10 ∧ 10 + 15 % 20 < 2 ^ 53 ∧
      (∀ pos, 15 ≤ pos → pos < 15 + 10 →
        ∃ page : Nat, startPage 15 ≤ page ∧
          (page : Int) < (startPage 15 : Int) + pagesToFetch 15 10 ∧ onPage page pos) :=
  ⟨by decide, by decide, (pages_cover_window 15 10 (by decide) (by decide)).1⟩

set_option maxRecDepth 100000 in
/-- C6 fails at `Episodes(0, 50)` on a fresh podcast whose pages 1 and 2 are fetched and whose
page 3 is not (status 404), when the tasks of pages 1 and 2 both read the empty slice before
either writes: the write of the second replaces that of the first.  Forty episodes are found,
fewer than 50, and the call returns the twenty of page 2 only, which is no permutation of the
forty found. -/
theorem Episodes_race_drops_page :
    cacheHit samplePodcast 0 50 = false ∧
      pagesToFetch 0 50 = 3 ∧
      (pageEpisodes samplePodcast 0 sampleNet 0 = sampleListing.take 20 ∧
        pageEpisodes samplePodcast 0 sampleNet 1 = sampleListing.drop 20 ∧
        (scrapEpisodesByPodcast (sampleNet (pageURL samplePodcast (startPage 0 + 2)))).toBool =
          false) ∧
      (foundEpisodes samplePodcast 0 50 sampleNet = sampleListing ∧
        (foundEpisodes samplePodcast 0 50 sampleNet).length < 50) ∧
      (Episodes samplePodcast 0 50 sampleNet
          [.load 0, .load 1, .store 0, .store 1]).returned = sampleListing.drop 20 ∧
      ¬ (Episodes samplePodcast 0 50 sampleNet
          [.load 0, .load 1, .store 0, .store 1]).returned.Perm
        (foundEpisodes samplePodcast 0 50 sampleNet) := by
  have hret : (Episodes samplePodcast 0 50 sampleNet
      [.load 0, .load 1, .store 0, .store 1]).returned = sampleListing.drop 20 := by decide
  have hfound : foundEpisodes samplePodcast 0 50 sampleNet = sampleListing := by decide
  refine ⟨by decide, by decide, ⟨by decide, by decide, by decide⟩, ⟨hfound, ?_⟩, hret, ?_⟩
  · rw [hfound]; decide
  · rw [hret, hfound]
    intro h
    exact absurd h.length_eq (by decide)

set_option maxRecDepth 100000 in
/-- C7 fails at `Episodes(0, 40)` on a fresh podcast whose pages 1 and 2 are both fetched, when
both tasks read the empty slice before either writes: forty episodes are found, `count` is 40,
and the list returned has length 20, not `min 40 40`. -/
theorem Episodes_race_shortens_result :
    cacheHit samplePodcast 0 40 = false ∧
      pagesToFetch 0 40 = 2 ∧
      (foundEpisodes samplePodcast 0 40 sampleNet).length = 40 ∧
      (Episodes samplePodcast 0 40 sampleNet
          [.load 0, .load 1, .store 0, .store 1]).returned.length = 20 ∧
      (Episodes samplePodcast 0 40 sampleNet
          [.load 0, .load 1, .store 0, .store 1]).returned.length ≠
        min (foundEpisodes samplePodcast 0 40 sampleNet).length 40 := by
  decide

/-- The loop of `SearchEpisode` keeps the matching episodes in their order. -/
theorem searchStep_foldl {R : Type} (compile : String → Option R) (run : R → String → Bool)
    (queryRegex : String) (episodes acc : List Episode) :
    episodes.foldl (searchStep compile run queryRegex) acc =
      acc ++ episodes.filter (fun e =>
        (regexpMatch compile run queryRegex e.Title).1 ||
          (regexpMatch compile run queryRegex e.Description).1) := by
  induction episodes generalizing acc with
  | nil => simp
  | cons e episodes ih =>
    rw [List.foldl_cons, ih, List.filter_cons]
    unfold searchStep
    by_cases h : ((regexpMatch compile run queryRegex e.Title).1 ||
        (regexpMatch compile run queryRegex e.Description).1) = true
    · simp [h]
    · simp [h]

/-- The first result of `regexp.Match` for the pattern built from the query. -/
theorem regexpMatch_fst {R : Type} (compile : String → Option R) (run : R → String → Bool)
    (query text : String) :
    (regexpMatch compile run ("(?i)" ++ query) text).1 = matchesQuery compile run query text := by
  unfold regexpMatch matchesQuery
  cases compile ("(?i)" ++ query) <;> rfl

/-- C9: `SearchEpisode` returns a permutation of the episodes whose title or description matches
the pattern built from the query, sorted by release date descending; when that pattern is not a
valid expression the result is empty; the query "live" keeps "Live from the studio" and drops
"Recorded show". -/
theorem SearchEpisode_filter_sort {R : Type} (compile : String → Option R)
    (run : R → String → Bool) (episodes : List Episode) (query : String) :
    (SearchEpisode compile run episodes query).Perm
        (episodes.filter (fun e =>
          matchesQuery compile run query e.Title || matchesQuery compile run query e.Description)) ∧
      SortedByDateDesc (SearchEpisode compile run episodes query) ∧
      (compile ("(?i)" ++ query) = none → SearchEpisode compile run episodes query = []) ∧
      SearchEpisode literalCompile literalRun [recordedEpisode, liveEpisode] "live" =
        [liveEpisode] := by
  have hfold : episodes.foldl (searchStep compile run ("(?i)" ++ query)) [] =
      episodes.filter (fun e =>
        matchesQuery compile run query e.Title || matchesQuery compile run query e.Description) := by
    rw [searchStep_foldl, List.nil_append]
    simp only [regexpMatch_fst]
  refine ⟨?_, sortByDate_sorted _, ?_, by decide⟩
  · unfold SearchEpisode
    simp only [hfold]
    exact sortByDate_perm _
  · intro hnone
    unfold SearchEpisode
    simp only [hfold]
    have : episodes.filter (fun e =>
        matchesQuery compile run query e.Title || matchesQuery compile run query e.Description)
          = [] := by
      rw [List.filter_eq_nil_iff]
      intro e _
      simp [matchesQuery, hnone]
    rw [this]
    rfl

/-- The query "(" gives a pattern that is not a valid expression and an empty result. -/
theorem SearchEpisode_filter_sort_witness :
    literalCompile ("(?i)" ++ "(") = none ∧
      SearchEpisode literalCompile literalRun [recordedEpisode, liveEpisode] "(" = [] :=
  ⟨by decide,
    (SearchEpisode_filter_sort literalCompile literalRun [recordedEpisode, liveEpisode] "(").2.2.1
      (by decide)⟩

/-- C8: `parseReleaseDate` is total; its result is the first successful parse of the input, with
every "Sept." replaced by "September", against "Jan. 2, 2006" and then "January 2, 2006", and the
zero time when neither parses; "Sept. 30, 2019" gives 2019-09-30, "January 2, 2006" gives
2006-01-02 and "yesterday" the zero time. -/
theorem parseReleaseDate_first_parse :
    (∀ (parse : List Char → List Char → Option Time) (s : String),
        parseReleaseDateWith parse s =
          match parse "Jan. 2, 2006".toList
              (replaceAll s.toList "Sept.".toList "September".toList) with
          | some t => t
          | none =>
            match parse "January 2, 2006".toList
                (replaceAll s.toList "Sept.".toList "September".toList) with
            | some t => t
            | none => Time.zero) ∧
      parseReleaseDate "Sept. 30, 2019" = Date 2019 9 30 ∧
      parseReleaseDate "January 2, 2006" = Date 2006 1 2 ∧
      parseReleaseDate "yesterday" = Time.zero := by
  refine ⟨?_, by decide, by decide, by decide⟩
  intro parse s
  simp only [parseReleaseDateWith, formats, parseReleaseDateLoop]

/-- C10 fails on a detail page whose audio link has an empty `href`: the first call succeeds with
the empty link, and the second call requests the page again (and fails when the network does). -/
theorem AudioURL_empty_link_refetched :
    (AudioURL liveEpisode emptyLinkPage).err = none ∧
      (AudioURL liveEpisode emptyLinkPage).link = "" ∧
      (AudioURL (AudioURL liveEpisode emptyLinkPage).episode offline).err =
        some AudioError.invalidEpisodeURL ∧
      (AudioURL (AudioURL liveEpisode emptyLinkPage).episode offline).requested =
        [liveEpisode.URL] := by
  decide

/-- C10 amended: when a call of `AudioURL` succeeds with a non-empty link, a second call on the
episode returns the same link with no error, requests nothing and leaves the episode as it is; the
two calls together request the detail page once when the stored audio URL was empty before the
first call, and never when it was not; and on an episode whose stored audio URL is non-empty
`AudioURL` returns the stored value, requests nothing and does not change the episode. -/
theorem AudioURL_memoized (e : Episode) (net₁ net₂ : String → DetailResponse)
    (hok : (AudioURL e net₁).err = none) (hlink : (AudioURL e net₁).link ≠ "") :
    (AudioURL (AudioURL e net₁).episode net₂).link = (AudioURL e net₁).link ∧
      (AudioURL (AudioURL e net₁).episode net₂).err = none ∧
      (AudioURL (AudioURL e net₁).episode net₂).requested = [] ∧
      (AudioURL (AudioURL e net₁).episode net₂).episode = (AudioURL e net₁).episode ∧
      (e.audioURL = "" →
        (AudioURL e net₁).requested ++ (AudioURL (AudioURL e net₁).episode net₂).requested =
          [e.URL]) ∧
      (e.audioURL ≠ "" →
        (AudioURL e net₁).requested ++ (AudioURL (AudioURL e net₁).episode net₂).requested = [] ∧
          AudioURL e net₁ = { link := e.audioURL, err := none, episode := e, requested := [] }) := by
  have hstored : (AudioURL e net₁).episode.audioURL = (AudioURL e net₁).link ∧
      ((AudioURL e net₁).requested = if e.audioURL = "" then [e.URL] else []) ∧
      (e.audioURL ≠ "" →
        AudioURL e net₁ = { link := e.audioURL, err := none, episode := e, requested := [] }) := by
    unfold AudioURL at hok ⊢
    by_cases h : e.audioURL = ""
    · simp only [h, bne_self_eq_false, Bool.false_eq_true, if_false] at hok ⊢
      cases hn : net₁ e.URL with
      | transportError => rw [hn] at hok; simp at hok
      | response statusCode document =>
        rw [hn] at hok
        by_cases hs : statusCode = 200
        · subst hs
          rcases document with _ | _ | link
          · simp at hok
          · simp at hok
          · simp
        · simp [hs] at hok
    · simp [h]
  obtain ⟨h1, h2, h3⟩ := hstored
  have hne : (AudioURL e net₁).episode.audioURL ≠ "" := by rw [h1]; exact hlink
  have hsecond : AudioURL (AudioURL e net₁).episode net₂ =
      { link := (AudioURL e net₁).episode.audioURL, err := none,
        episode := (AudioURL e net₁).episode, requested := [] } := by
    generalize (AudioURL e net₁).episode = e' at hne
    unfold AudioURL
    simp [hne]
  rw [hsecond]
  refine ⟨h1, rfl, rfl, rfl, ?_, ?_⟩
  · intro he
    rw [h2, if_pos he]
    rfl
  · intro he
    refine ⟨?_, h3 he⟩
    rw [h2, if_neg he]
    rfl

/-- Two calls of `AudioURL` on an episode whose detail page has an audio link. -/
theorem AudioURL_memoized_witness :
    (AudioURL liveEpisode audioLinkPage).err = none ∧
      (AudioURL liveEpisode audioLinkPage).link ≠ "" ∧
      (AudioURL (AudioURL liveEpisode audioLinkPage).episode offline).link =
        (AudioURL liveEpisode audioLinkPage).link ∧
      (AudioURL (AudioURL liveEpisode audioLinkPage).episode offline).requested = [] :=
  ⟨by decide, by decide,
    (AudioURL_memoized liveEpisode audioLinkPage offline (by decide) (by decide)).1,
    (AudioURL_memoized liveEpisode audioLinkPage offline (by decide) (by decide)).2.2.1⟩


set_option maxRecDepth 100000 in
/-- C1 fails at `Episodes(15, 10)` on a fresh podcast whose listing of forty episodes with
distinct dates is served, newest first, in two pages of twenty that are both fetched: the call
requests pages 1 and 2 and returns the positions 0..9 of the listing when page 1 is appended first
(20..29 when page 2 is), not the positions 15..24. -/
theorem Episodes_ignores_offset_within_page :
    (pageEpisodes samplePodcast 15 sampleNet 0 = sampleListing.take 20 ∧
      pageEpisodes samplePodcast 15 sampleNet 1 = (sampleListing.drop 20).take 20) ∧
      (sampleListing.map (fun e => e.ReleaseDate)).Nodup ∧
      SortedByDateDesc sampleListing ∧
      15 + 10 ≤ sampleListing.length ∧
      samplePodcast.episodes = none ∧
      (Episodes samplePodcast 15 10 sampleNet (inTurn [])).requested =
        ["https://gpodder.net/podcast/show/-episodes?page=1",
          "https://gpodder.net/podcast/show/-episodes?page=2"] ∧
      (Episodes samplePodcast 15 10 sampleNet (inTurn [])).returned = sampleListing.take 10 ∧
      (Episodes samplePodcast 15 10 sampleNet (inTurn [1, 0])).returned =
        (sampleListing.drop 20).take 10 ∧
      (Episodes samplePodcast 15 10 sampleNet (inTurn [])).returned ≠
        (sampleListing.drop 15).take 10 ∧
      (Episodes samplePodcast 15 10 sampleNet (inTurn [1, 0])).returned ≠
        (sampleListing.drop 15).take 10 := by
  decide

set_option maxRecDepth 100000 in
/-- C2 fails at `Episodes(0, 30)` on the same podcast when page 2 is appended before page 1: forty
episodes are found, the thirty kept are the first thirty appended (positions 20..39 and 0..9),
sorted, and not the first thirty of the sorted merged set (positions 0..29). -/
theorem Episodes_truncates_before_sorting :
    30 ≤ (mergedEpisodes samplePodcast 0 30 sampleNet (inTurn [1, 0])).length ∧
      (Episodes samplePodcast 0 30 sampleNet (inTurn [1, 0])).returned =
        sampleListing.take 10 ++ sampleListing.drop 20 ∧
      (sortByDate (mergedEpisodes samplePodcast 0 30 sampleNet (inTurn [1, 0]))).take 30 =
        sampleListing.take 30 ∧
      (Episodes samplePodcast 0 30 sampleNet (inTurn [1, 0])).returned ≠
        (sortByDate (mergedEpisodes samplePodcast 0 30 sampleNet (inTurn [1, 0]))).take 30 := by
  decide

end Podcasts
